import Mathlib

/-!
Verification of the hand-tracking ingestion pipeline
(`src/input/input.py`, `UltraleapListener`) against its specification.

The Python module maps native Leap-SDK tracking frames into flat
`msgspec` structs and forwards them over UDP.  We embed the canonical
data model (`Vector3`, `Quaternion`, `Bone`, `Finger`, `Hand`,
`TrackingEvent`), the native frame shape as the listener's code accesses
it, the per-callback state of `UltraleapListener`, and the body of
`on_tracking_event` as a pure step function.  Machine floats are
modelled as rationals; Python's `ZeroDivisionError` and attribute
access on an absent sub-structure are modelled as an `error` outcome.
-/

namespace Input

/-- Canonical 3-component vector (`Vector3` msgspec struct). -/
structure Vector3 where
  x : ℚ
  y : ℚ
  z : ℚ
deriving DecidableEq, Repr

/-- Canonical quaternion (`Quaternion` msgspec struct). -/
structure Quaternion where
  x : ℚ
  y : ℚ
  z : ℚ
  w : ℚ
deriving DecidableEq, Repr

/-- One bone/phalange (`Bone` msgspec struct). -/
structure Bone where
  start_position : Vector3
  end_position : Vector3
  center : Vector3
  orientation : Quaternion
  length : ℚ
  width : ℚ
deriving DecidableEq, Repr

/-- One finger (`Finger` msgspec struct). -/
structure Finger where
  id : ℤ
  tip_position : Vector3
  is_extended : Bool
  bones : List Bone
deriving DecidableEq, Repr

/-- Full tracking data of one hand (`Hand` msgspec struct). -/
structure Hand where
  id : ℤ
  is_left : Bool
  confidence : ℚ
  grab_strength : ℚ
  pinch_strength : ℚ
  pinch_distance : ℚ
  palm_position : Vector3
  palm_velocity : Vector3
  palm_normal : Vector3
  direction : Vector3
  wrist_position : Vector3
  arm_elbow_position : Vector3
  fingers : List Finger
deriving DecidableEq, Repr

/-- Root struct of one frame (`TrackingEvent` msgspec struct). -/
structure TrackingEvent where
  tracking_frame_id : ℤ
  timestamp : ℤ
  hands : List Hand
deriving DecidableEq, Repr

/-! Native (Leap SDK) side, exactly the fields `on_tracking_event` reads. -/

/-- A native 3-vector as exposed by the Leap SDK (`.x`, `.y`, `.z`). -/
structure LeapVector where
  x : ℚ
  y : ℚ
  z : ℚ
deriving DecidableEq, Repr

/-- A native rotation as exposed by the Leap SDK (`.x`, `.y`, `.z`, `.w`). -/
structure LeapRotation where
  x : ℚ
  y : ℚ
  z : ℚ
  w : ℚ
deriving DecidableEq, Repr

/-- A native bone: `prev_joint`, `next_joint`, `center`, `rotation`,
`length`, `width`, as read in the inner loop of `on_tracking_event`. -/
structure LeapBone where
  prev_joint : LeapVector
  next_joint : LeapVector
  center : LeapVector
  rotation : LeapRotation
  length : ℚ
  width : ℚ
deriving DecidableEq, Repr

/-- A native digit: `finger_id`, `tip_position`, `is_extended`, `bones`. -/
structure LeapDigit where
  finger_id : ℤ
  tip_position : LeapVector
  is_extended : Bool
  bones : List LeapBone
deriving DecidableEq, Repr

/-- The Leap hand-type tag (`leap.HandType`). -/
inductive HandType where
  | Left : HandType
  | Right : HandType
deriving DecidableEq, Repr

/-- The native palm sub-structure: `position`, `velocity`, `normal`,
`direction`. -/
structure LeapPalm where
  position : LeapVector
  velocity : LeapVector
  normal : LeapVector
  direction : LeapVector
deriving DecidableEq, Repr

/-- The native arm sub-structure: `wrist` and `elbow` joint positions. -/
structure LeapArm where
  wrist : LeapVector
  elbow : LeapVector
deriving DecidableEq, Repr

/-- A native hand as accessed by `on_tracking_event`.  The arm
sub-structure is optional so that frames whose hand entry lacks arm
geometry are representable; the Python code accesses `hand.arm.wrist`
unconditionally, so an absent arm raises at that access. -/
structure LeapHand where
  id : ℤ
  type : HandType
  confidence : ℚ
  grab_strength : ℚ
  pinch_strength : ℚ
  pinch_distance : ℚ
  palm : LeapPalm
  arm : Option LeapArm
  digits : List LeapDigit
deriving DecidableEq, Repr

/-- A native tracking event: `tracking_frame_id`, `timestamp`, `hands`. -/
structure LeapTrackingEvent where
  tracking_frame_id : ℤ
  timestamp : ℤ
  hands : List LeapHand
deriving DecidableEq, Repr

/-- Inner loop body of `on_tracking_event`: builds a `Bone` struct from a
native bone, copying every component verbatim. -/
def mapBone (bone : LeapBone) : Bone :=
  { start_position := { x := bone.prev_joint.x, y := bone.prev_joint.y, z := bone.prev_joint.z }
    end_position := { x := bone.next_joint.x, y := bone.next_joint.y, z := bone.next_joint.z }
    center := { x := bone.center.x, y := bone.center.y, z := bone.center.z }
    orientation := { x := bone.rotation.x, y := bone.rotation.y, z := bone.rotation.z, w := bone.rotation.w }
    length := bone.length
    width := bone.width }

/-- Middle loop body of `on_tracking_event`: builds a `Finger` struct from
a native digit, mapping its bones in order. -/
def mapDigit (digit : LeapDigit) : Finger :=
  { id := digit.finger_id
    tip_position := { x := digit.tip_position.x, y := digit.tip_position.y, z := digit.tip_position.z }
    is_extended := digit.is_extended
    bones := digit.bones.map mapBone }

/-- Outer loop body of `on_tracking_event`: builds a `Hand` struct from a
native hand.  The code reads `arm = hand.arm` and then `arm.wrist` /
`arm.elbow` without any guard, so a hand without arm geometry raises an
attribute error, modelled as `none`. -/
def mapHand (hand : LeapHand) : Option Hand :=
  match hand.arm with
  | none => none
  | some arm => some
      { id := hand.id
        is_left := decide (hand.type = HandType.Left)
        confidence := hand.confidence
        grab_strength := hand.grab_strength
        pinch_strength := hand.pinch_strength
        pinch_distance := hand.pinch_distance
        palm_position := { x := hand.palm.position.x, y := hand.palm.position.y, z := hand.palm.position.z }
        palm_velocity := { x := hand.palm.velocity.x, y := hand.palm.velocity.y, z := hand.palm.velocity.z }
        palm_normal := { x := hand.palm.normal.x, y := hand.palm.normal.y, z := hand.palm.normal.z }
        direction := { x := hand.palm.direction.x, y := hand.palm.direction.y, z := hand.palm.direction.z }
        wrist_position := { x := arm.wrist.x, y := arm.wrist.y, z := arm.wrist.z }
        arm_elbow_position := { x := arm.elbow.x, y := arm.elbow.y, z := arm.elbow.z }
        fingers := hand.digits.map mapDigit }

/-- The `for hand in event.hands` loop: maps each hand in order; an
exception on any hand aborts the whole loop. -/
def mapHands : List LeapHand → Option (List Hand)
  | [] => some []
  | h :: rest =>
    match mapHand h with
    | none => none
    | some hm =>
      match mapHands rest with
      | none => none
      | some tl => some (hm :: tl)

/-- Construction of the `TrackingEvent` struct sent by the listener. -/
def mapTrackingEvent (event : LeapTrackingEvent) : Option TrackingEvent :=
  match mapHands event.hands with
  | none => none
  | some hs => some
      { tracking_frame_id := event.tracking_frame_id
        timestamp := event.timestamp
        hands := hs }

/-- Python side `deque(maxlen=30)` append: appends on the right, evicting
the oldest (leftmost) sample once 30 samples are held. -/
def fpsPush (q : List ℚ) (x : ℚ) : List ℚ :=
  if q.length < 30 then q ++ [x] else q.tail ++ [x]

/-- The mutable fields of `UltraleapListener` (set in `__init__`): the
UDP client's destination, the last raw hands list, the last frame id,
the FPS sample window and the previous wall-clock arrival time. -/
structure ListenerState where
  clientHost : String
  clientPort : ℕ
  current_hands : List LeapHand
  frame_id : ℤ
  fps_samples : List ℚ
  last_time : Option ℚ
deriving DecidableEq, Repr

/-- Listener state right after `__init__`. -/
def initState : ListenerState :=
  { clientHost := "127.0.0.1"
    clientPort := 5005
    current_hands := []
    frame_id := 0
    fps_samples := []
    last_time := none }

/-- Outcome of one `on_tracking_event` call: it either returns normally
(having sent at most one labelled message) or lets a Python exception
escape. -/
inductive CallbackResult where
  | ok : Option (String × TrackingEvent) → CallbackResult
  | error : CallbackResult
deriving DecidableEq, Repr

/-- The body of `UltraleapListener.on_tracking_event`, given the value
`time.time()` returns during the call.  `self.frame_id` and
`self.current_hands` are assigned first; the guard `if self.last_time:`
is Python truthiness, so it is taken only when `last_time` is a number
other than `0.0`; inside the guard, `1.0 / (current_time - last_time)`
raises `ZeroDivisionError` on a zero interval (before the sample is
appended), the mapping loops raise on a hand without arm geometry
(after the sample is appended), and otherwise one message labelled
`/tracking/event` is sent; `self.last_time` is assigned only when the
body runs to completion. -/
def onTrackingEvent (s : ListenerState) (event : LeapTrackingEvent) (current_time : ℚ) :
    ListenerState × CallbackResult :=
  let s1 : ListenerState := { s with frame_id := event.tracking_frame_id, current_hands := event.hands }
  match s1.last_time with
  | none => ({ s1 with last_time := some current_time }, .ok none)
  | some lt =>
    if lt = 0 then
      ({ s1 with last_time := some current_time }, .ok none)
    else if current_time = lt then
      (s1, .error)
    else
      let s2 : ListenerState := { s1 with fps_samples := fpsPush s1.fps_samples (1 / (current_time - lt)) }
      match mapTrackingEvent event with
      | none => (s2, .error)
      | some te => ({ s2 with last_time := some current_time }, .ok (some ("/tracking/event", te)))

/-- Runs a sequence of tracking callbacks, each given as a native event
paired with its wall-clock arrival time; collects every sent message in
order. -/
def runCallbacks : ListenerState → List (LeapTrackingEvent × ℚ) →
    ListenerState × List (String × TrackingEvent)
  | s, [] => (s, [])
  | s, (e, t) :: rest =>
    let step := onTrackingEvent s e t
    let later := runCallbacks step.1 rest
    (later.1,
      (match step.2 with
       | .ok (some m) => [m]
       | _ => []) ++ later.2)

/-- Inter-frame samples pushed by a run of callbacks in the steady state:
given the previous arrival time and the arrival times that follow, the
sequence of `1 / (now - previous)` values in push order. -/
def gaps : ℚ → List ℚ → List ℚ
  | _, [] => []
  | prev, t :: rest => (1 / (t - prev)) :: gaps t rest

/-! Encoder model.  The serialization behind
`MsgspecUDPClient.send_struct` lives in the external `msgspec_osc`
package, not in this repository's sources. -/

/-- One primitive value in an encoded payload. -/
inductive OscValue where
  | intVal : ℤ → OscValue
  | floatVal : ℚ → OscValue
  | boolVal : Bool → OscValue
deriving DecidableEq, Repr

/-- Modelled from the spec: the Encoder of `msgspec_osc` (behind
`MsgspecUDPClient.send_struct`, absent from `src/`) serializes a
`Vector3` as its three float components in field order. -/
def encodeVector3 (v : Vector3) : List OscValue :=
  [.floatVal v.x, .floatVal v.y, .floatVal v.z]

/-- Modelled from the spec: a `Quaternion` is serialized as its four
float components in field order. -/
def encodeQuaternion (q : Quaternion) : List OscValue :=
  [.floatVal q.x, .floatVal q.y, .floatVal q.z, .floatVal q.w]

/-- Modelled from the spec: a `Bone` is serialized field by field in
declaration order. -/
def encodeBone (b : Bone) : List OscValue :=
  encodeVector3 b.start_position ++ encodeVector3 b.end_position ++
    encodeVector3 b.center ++ encodeQuaternion b.orientation ++
    [.floatVal b.length, .floatVal b.width]

/-- Modelled from the spec: a `Finger` is serialized field by field, with
an explicit bone count so the payload is self-describing. -/
def encodeFinger (f : Finger) : List OscValue :=
  [.intVal f.id] ++ encodeVector3 f.tip_position ++ [.boolVal f.is_extended] ++
    [.intVal (f.bones.length : ℤ)] ++ (f.bones.map encodeBone).flatten

/-- Modelled from the spec: a `Hand` is serialized field by field, with an
explicit finger count so the payload is self-describing. -/
def encodeHand (h : Hand) : List OscValue :=
  [.intVal h.id, .boolVal h.is_left, .floatVal h.confidence,
   .floatVal h.grab_strength, .floatVal h.pinch_strength, .floatVal h.pinch_distance] ++
    encodeVector3 h.palm_position ++ encodeVector3 h.palm_velocity ++
    encodeVector3 h.palm_normal ++ encodeVector3 h.direction ++
    encodeVector3 h.wrist_position ++ encodeVector3 h.arm_elbow_position ++
    [.intVal (h.fingers.length : ℤ)] ++ (h.fingers.map encodeFinger).flatten

/-- Modelled from the spec: `send_struct("/tracking/event", event)`
encodes the routing label together with the `TrackingEvent` value, field
by field with explicit counts.  The ambient wall-clock reading available
at call time is passed in to make explicit that, per the spec, the
encoder injects no timestamps of its own: the output is a function of
the struct value alone. -/
def sendStructPayload (now : ℚ) (label : String) (te : TrackingEvent) :
    String × List OscValue :=
  let _ := now
  (label,
    [.intVal te.tracking_frame_id, .intVal te.timestamp,
     .intVal (te.hands.length : ℤ)] ++ (te.hands.map encodeHand).flatten)

/-! Concrete native frames used as evaluation inputs. -/

/-- A native frame with no hands. -/
def emptyFrame : LeapTrackingEvent :=
  { tracking_frame_id := 7, timestamp := 123456, hands := [] }

/-- A sample native bone. -/
def sampleBone : LeapBone :=
  { prev_joint := { x := 1, y := 2, z := 3 }
    next_joint := { x := 4, y := 5, z := 6 }
    center := { x := 5/2, y := 7/2, z := 9/2 }
    rotation := { x := 0, y := 0, z := 0, w := 1 }
    length := 30
    width := 10 }

/-- A sample native digit with four bones. -/
def sampleDigit (i : ℤ) : LeapDigit :=
  { finger_id := i
    tip_position := { x := 11, y := 22, z := 33 }
    is_extended := true
    bones := List.replicate 4 sampleBone }

/-- The left hand of the spec's scenario: confidence 0.9, palm position
`(10, 200, 30)`, five digits of four bones each, arm present. -/
def scenarioHand : LeapHand :=
  { id := 1
    type := HandType.Left
    confidence := 9/10
    grab_strength := 1/2
    pinch_strength := 1/4
    pinch_distance := 42
    palm := { position := { x := 10, y := 200, z := 30 }
              velocity := { x := 1, y := 0, z := 0 }
              normal := { x := 0, y := -1, z := 0 }
              direction := { x := 0, y := 0, z := 1 } }
    arm := some { wrist := { x := 10, y := 150, z := 30 }, elbow := { x := 10, y := 0, z := 30 } }
    digits := [sampleDigit 0, sampleDigit 1, sampleDigit 2, sampleDigit 3, sampleDigit 4] }

/-- The spec's scenario frame: `{id=42, timestamp=1000000}` with one left
hand. -/
def scenarioFrame : LeapTrackingEvent :=
  { tracking_frame_id := 42, timestamp := 1000000, hands := [scenarioHand] }

/-- The mapped image of the scenario frame. -/
def scenarioMapped : TrackingEvent :=
  (mapTrackingEvent scenarioFrame).getD { tracking_frame_id := 0, timestamp := 0, hands := [] }

/-- A native hand whose arm sub-structure is absent. -/
def armlessHand : LeapHand :=
  { scenarioHand with id := 2, type := HandType.Right, arm := none }

/-- A native frame whose single hand lacks its arm sub-structure. -/
def armlessFrame : LeapTrackingEvent :=
  { tracking_frame_id := 43, timestamp := 1000100, hands := [armlessHand] }

/-- A native frame with one well-formed hand and one hand lacking its arm
sub-structure. -/
def mixedFrame : LeapTrackingEvent :=
  { tracking_frame_id := 44, timestamp := 1000200, hands := [scenarioHand, armlessHand] }

/-- Thirty strictly increasing arrival times `4, 9, ..., 961` following
an initial arrival at time `1` (so that every inter-frame sample of the
train has a distinct value). -/
def sqTailTimes : List ℚ :=
  [4, 9, 16, 25, 36, 49, 64, 81, 100, 121, 144, 169, 196, 225, 256,
   289, 324, 361, 400, 441, 484, 529, 576, 625, 676, 729, 784, 841, 900, 961]

/-- Thirty-one strictly increasing arrival times `1, 4, 9, ..., 961`. -/
def sqTimes : List ℚ :=
  1 :: sqTailTimes

/-- The 29 arrival times following `1` and `2` in a 31-callback train. -/
def witnessTimes : List ℚ :=
  [3, 4, 5, 6, 7, 8, 9, 10, 11, 12, 13, 14, 15, 16, 17,
   18, 19, 20, 21, 22, 23, 24, 25, 26, 27, 28, 29, 30, 31]

/-! Helper lemmas shared by the claim theorems. -/

/-- Unfolding of an empty callback run. -/
theorem runCallbacks_nil (s : ListenerState) : runCallbacks s [] = (s, []) := rfl

/-- Unfolding of one callback step of a run. -/
theorem runCallbacks_cons (s : ListenerState) (e : LeapTrackingEvent) (t : ℚ)
    (rest : List (LeapTrackingEvent × ℚ)) :
    runCallbacks s ((e, t) :: rest) =
      ((runCallbacks (onTrackingEvent s e t).1 rest).1,
       (match (onTrackingEvent s e t).2 with
        | CallbackResult.ok (some m) => [m]
        | _ => []) ++ (runCallbacks (onTrackingEvent s e t).1 rest).2) := rfl

/-- A successful hand loop maps the hands pointwise and in order. -/
theorem mapHands_forall2 : ∀ {l : List LeapHand} {l' : List Hand},
    mapHands l = some l' → List.Forall₂ (fun a b => mapHand a = some b) l l'
  | [], l', h => by
    simp only [mapHands, Option.some.injEq] at h
    subst h
    exact List.Forall₂.nil
  | a :: as, l', h => by
    cases hma : mapHand a with
    | none => simp [mapHands, hma] at h
    | some b =>
      cases hrest : mapHands as with
      | none => simp [mapHands, hma, hrest] at h
      | some bs =>
        simp only [mapHands, hma, hrest, Option.some.injEq] at h
        subst h
        exact List.Forall₂.cons hma (mapHands_forall2 hrest)

/-- Characterization of a successful `mapHand`: the arm is present and
every field of the produced `Hand` is the verbatim copy built in the
loop body. -/
theorem mapHand_eq_some {h : LeapHand} {hm : Hand} (hh : mapHand h = some hm) :
    ∃ arm, h.arm = some arm ∧
      hm = { id := h.id
             is_left := decide (h.type = HandType.Left)
             confidence := h.confidence
             grab_strength := h.grab_strength
             pinch_strength := h.pinch_strength
             pinch_distance := h.pinch_distance
             palm_position := { x := h.palm.position.x, y := h.palm.position.y, z := h.palm.position.z }
             palm_velocity := { x := h.palm.velocity.x, y := h.palm.velocity.y, z := h.palm.velocity.z }
             palm_normal := { x := h.palm.normal.x, y := h.palm.normal.y, z := h.palm.normal.z }
             direction := { x := h.palm.direction.x, y := h.palm.direction.y, z := h.palm.direction.z }
             wrist_position := { x := arm.wrist.x, y := arm.wrist.y, z := arm.wrist.z }
             arm_elbow_position := { x := arm.elbow.x, y := arm.elbow.y, z := arm.elbow.z }
             fingers := h.digits.map mapDigit } := by
  unfold mapHand at hh
  cases ha : h.arm with
  | none => rw [ha] at hh; cases hh
  | some arm =>
    rw [ha] at hh
    injection hh with hh
    exact ⟨arm, rfl, hh.symm⟩

/-- Characterization of a successful `mapTrackingEvent`. -/
theorem mapTrackingEvent_eq_some {e : LeapTrackingEvent} {te : TrackingEvent}
    (h : mapTrackingEvent e = some te) :
    mapHands e.hands = some te.hands ∧
    te.tracking_frame_id = e.tracking_frame_id ∧ te.timestamp = e.timestamp := by
  unfold mapTrackingEvent at h
  cases hh : mapHands e.hands with
  | none => rw [hh] at h; cases h
  | some hs =>
    rw [hh] at h
    injection h with h
    subst h
    exact ⟨rfl, rfl, rfl⟩

/-- The hand loop succeeds when every hand carries arm geometry. -/
theorem mapHands_isSome {l : List LeapHand} (h : ∀ x ∈ l, x.arm.isSome = true) :
    (mapHands l).isSome = true := by
  induction l with
  | nil => simp [mapHands]
  | cons a as ih =>
    obtain ⟨arm, harm⟩ := Option.isSome_iff_exists.mp (h a (List.mem_cons_self a as))
    obtain ⟨tl, htl⟩ :=
      Option.isSome_iff_exists.mp (ih fun x hx => h x (List.mem_cons_of_mem a hx))
    simp [mapHands, mapHand, harm, htl]

/-- The whole mapping succeeds when every hand carries arm geometry. -/
theorem mapTrackingEvent_isSome {e : LeapTrackingEvent}
    (h : ∀ x ∈ e.hands, x.arm.isSome = true) :
    (mapTrackingEvent e).isSome = true := by
  obtain ⟨hs, hhs⟩ := Option.isSome_iff_exists.mp (mapHands_isSome h)
  simp [mapTrackingEvent, hhs]

/-- One hand without arm geometry aborts the whole hand loop. -/
theorem mapHands_eq_none {l : List LeapHand} (h : ∃ x ∈ l, x.arm = none) :
    mapHands l = none := by
  induction l with
  | nil => simp at h
  | cons a as ih =>
    obtain ⟨x, hx, hxa⟩ := h
    rcases List.mem_cons.mp hx with rfl | hmem
    · simp [mapHands, mapHand, hxa]
    · cases hma : mapHand a with
      | none => simp [mapHands, hma]
      | some b => simp [mapHands, hma, ih ⟨x, hmem, hxa⟩]

/-- One hand without arm geometry aborts the whole frame mapping. -/
theorem mapTrackingEvent_eq_none {e : LeapTrackingEvent}
    (h : ∃ x ∈ e.hands, x.arm = none) :
    mapTrackingEvent e = none := by
  simp [mapTrackingEvent, mapHands_eq_none h]

/-- Behavior of the very first callback: only the raw frame fields and
the arrival time are stored; nothing is pushed and nothing is sent. -/
theorem onTrackingEvent_first (s : ListenerState) (e : LeapTrackingEvent) (t : ℚ)
    (hs : s.last_time = none) :
    onTrackingEvent s e t =
      ({ s with
         current_hands := e.hands
         frame_id := e.tracking_frame_id
         last_time := some t }, CallbackResult.ok none) := by
  unfold onTrackingEvent
  simp [hs]

/-- Behavior of a steady-state callback: previous time present and
nonzero, a nonzero interval, and a mappable frame give exactly one sent
message, one pushed sample and an updated arrival time. -/
theorem onTrackingEvent_steady {s : ListenerState} {e : LeapTrackingEvent}
    {te : TrackingEvent} {t lt : ℚ}
    (hs : s.last_time = some lt) (h0 : lt ≠ 0) (hne : t ≠ lt)
    (hmap : mapTrackingEvent e = some te) :
    onTrackingEvent s e t =
      ({ s with
         current_hands := e.hands
         frame_id := e.tracking_frame_id
         fps_samples := fpsPush s.fps_samples (1 / (t - lt))
         last_time := some t },
       CallbackResult.ok (some ("/tracking/event", te))) := by
  unfold onTrackingEvent
  simp [hs, h0, hne, hmap]

/-- Behavior of a callback whose frame mapping aborts: the sample is
pushed, the arrival time is left stale, and the error escapes. -/
theorem onTrackingEvent_maperror {s : ListenerState} {e : LeapTrackingEvent} {t lt : ℚ}
    (hs : s.last_time = some lt) (h0 : lt ≠ 0) (hne : t ≠ lt)
    (hmap : mapTrackingEvent e = none) :
    onTrackingEvent s e t =
      ({ s with
         current_hands := e.hands
         frame_id := e.tracking_frame_id
         fps_samples := fpsPush s.fps_samples (1 / (t - lt)) },
       CallbackResult.error) := by
  unfold onTrackingEvent
  simp [hs, h0, hne, hmap]

/-- Behavior of a callback with a zero interval: the division raises
before anything is pushed, stored or sent. -/
theorem onTrackingEvent_zero_interval {s : ListenerState} {e : LeapTrackingEvent} {lt : ℚ}
    (hs : s.last_time = some lt) (h0 : lt ≠ 0) :
    onTrackingEvent s e lt =
      ({ s with
         current_hands := e.hands
         frame_id := e.tracking_frame_id },
       CallbackResult.error) := by
  unfold onTrackingEvent
  simp [hs, h0]

/-- Pushing into the window preserves the 30-sample bound. -/
theorem fpsPush_length_le {q : List ℚ} (h : q.length ≤ 30) (x : ℚ) :
    (fpsPush q x).length ≤ 30 := by
  unfold fpsPush
  split
  · simp
    omega
  · simp
    omega

/-- While there is room for the whole batch, pushing only appends. -/
theorem foldl_fpsPush_of_le (l : List ℚ) : ∀ q : List ℚ, q.length + l.length ≤ 30 →
    List.foldl fpsPush q l = q ++ l := by
  induction l with
  | nil => intro q _; simp
  | cons x xs ih =>
    intro q h
    have hq : q.length < 30 := by
      simp at h
      omega
    have hx : fpsPush q x = q ++ [x] := by
      unfold fpsPush
      rw [if_pos hq]
    have h2 : (q ++ [x]).length + xs.length ≤ 30 := by
      simp at h ⊢
      omega
    simp only [List.foldl_cons, hx, ih (q ++ [x]) h2]
    simp

/-- There are as many samples as steady-state arrivals. -/
theorem gaps_length : ∀ (prev : ℚ) (ts : List ℚ), (gaps prev ts).length = ts.length
  | _, [] => rfl
  | prev, t :: rest => by simp [gaps, gaps_length t rest]

/-- Steady-state run: starting from a state with a positive previous
arrival time, a strictly increasing train of arrivals of one mappable
frame folds its interval samples into the window and tracks the last
arrival time. -/
theorem run_steady (e : LeapTrackingEvent) (te : TrackingEvent)
    (hmap : mapTrackingEvent e = some te) :
    ∀ (ts : List ℚ) (s : ListenerState) (lt : ℚ),
      s.last_time = some lt → 0 < lt → List.Chain (· < ·) lt ts →
      (runCallbacks s (ts.map fun t => (e, t))).1.fps_samples =
        List.foldl fpsPush s.fps_samples (gaps lt ts) ∧
      (runCallbacks s (ts.map fun t => (e, t))).1.last_time = some (ts.getLastD lt)
  | [], s, lt, hs, _, _ => by simp [runCallbacks, gaps, hs]
  | t :: ts', s, lt, hs, hpos, hchain => by
    obtain ⟨hlt_t, hchain'⟩ := List.chain_cons.mp hchain
    have hstep := onTrackingEvent_steady hs (ne_of_gt hpos) (ne_of_gt hlt_t) hmap
    have hrec := run_steady e te hmap ts'
      ({ s with
         current_hands := e.hands
         frame_id := e.tracking_frame_id
         fps_samples := fpsPush s.fps_samples (1 / (t - lt))
         last_time := some t }) t rfl (lt_trans hpos hlt_t) hchain'
    simp only [List.map_cons, runCallbacks, hstep]
    refine ⟨?_, ?_⟩
    · rw [hrec.1]
      simp [gaps]
    · rw [hrec.2, List.getLastD_cons]

/-- Behavior of a callback whose stored previous time is `0.0`: Python
truthiness treats it as absent, so the branch is skipped exactly as on
the first callback. -/
theorem onTrackingEvent_falsy {s : ListenerState} (e : LeapTrackingEvent) (t : ℚ)
    (hs : s.last_time = some 0) :
    onTrackingEvent s e t =
      ({ s with
         current_hands := e.hands
         frame_id := e.tracking_frame_id
         last_time := some t }, CallbackResult.ok none) := by
  unfold onTrackingEvent
  simp [hs]

/-! Claim theorems. -/

/-- C1: for every two tracking callbacks with wall-clock arrival times
`0 < t0 < t1` whose second frame carries arm geometry on every hand,
zero messages have been sent after only the first callback, and exactly
one message is sent in total over the two callbacks — that send
happening during the second. -/
theorem first_frame_rule (e0 e1 : LeapTrackingEvent) (t0 t1 : ℚ)
    (hpos : 0 < t0) (hlt : t0 < t1)
    (harms : ∀ x ∈ e1.hands, x.arm.isSome = true) :
    (runCallbacks initState [(e0, t0)]).2.length = 0 ∧
    (runCallbacks initState [(e0, t0), (e1, t1)]).2.length = 1 := by
  obtain ⟨te, hte⟩ := Option.isSome_iff_exists.mp (mapTrackingEvent_isSome harms)
  have h1 := onTrackingEvent_first initState e0 t0 rfl
  have h2 := @onTrackingEvent_steady
      ({ initState with
         current_hands := e0.hands
         frame_id := e0.tracking_frame_id
         last_time := some t0 })
      e1 te t1 t0 rfl hpos.ne' hlt.ne' hte
  constructor
  · simp [runCallbacks_cons, runCallbacks_nil, h1]
  · simp [runCallbacks_cons, runCallbacks_nil, h1, h2]

/-- C1 witness: two callbacks at times 1 and 2 with the empty frame and
then the scenario frame send nothing after the first callback and
exactly one message in total. -/
theorem first_frame_rule_witness :
    ((0 : ℚ) < 1 ∧ (1 : ℚ) < 2 ∧ ∀ x ∈ scenarioFrame.hands, x.arm.isSome = true) ∧
    (runCallbacks initState [(emptyFrame, 1)]).2.length = 0 ∧
    (runCallbacks initState [(emptyFrame, 1), (scenarioFrame, 2)]).2.length = 1 :=
  ⟨⟨by norm_num, by norm_num, by decide⟩,
   first_frame_rule emptyFrame scenarioFrame 1 2 (by norm_num) (by norm_num) (by decide)⟩

/-- C2 is false on the code: after only the very first tracking callback
(the scenario frame arriving at wall-clock time 1), the rate window is
still empty — no FPS sample was recorded and no `TrackingEvent` was
built — whereas the claim asserts the frame is mapped and a sample is
recorded. -/
theorem first_callback_counterexample :
    (onTrackingEvent initState scenarioFrame 1).1.fps_samples = [] ∧
    (onTrackingEvent initState scenarioFrame 1).2 = CallbackResult.ok none :=
  ⟨rfl, rfl⟩

/-- C2 (amended): on the very first tracking callback after connecting,
no FPS sample is recorded and no `TrackingEvent` is built or sent; the
callback only stores the raw frame id, the native hands reference and
the wall-clock arrival time. -/
theorem first_callback_amended (e : LeapTrackingEvent) (t : ℚ) :
    onTrackingEvent initState e t =
      ({ initState with
         current_hands := e.hands
         frame_id := e.tracking_frame_id
         last_time := some t }, CallbackResult.ok none) :=
  onTrackingEvent_first initState e t rfl

/-- C8 is false on the code: after a callback delivering the scenario
frame, the listener still holds that frame's native hands list in
`current_hands` (a nonempty native per-frame entity that has outlived
its callback invocation) and its id in `frame_id`. -/
theorem carried_state_counterexample :
    (onTrackingEvent initState scenarioFrame 1).1.current_hands = scenarioFrame.hands ∧
    scenarioFrame.hands ≠ [] ∧
    (onTrackingEvent initState scenarioFrame 1).1.frame_id = 42 := by
  refine ⟨rfl, ?_, rfl⟩
  decide

/-- C8 (amended): the state carried across callbacks is the rate window
with its previous arrival time and the socket destination, plus the
frame id and native hands list of the most recent frame: every branch
of the callback stores `event.hands` and `event.tracking_frame_id` in
the listener, so the last frame's native hand entities do outlive their
callback invocation. -/
theorem carried_state_amended (s : ListenerState) (e : LeapTrackingEvent) (t : ℚ) :
    (onTrackingEvent s e t).1.current_hands = e.hands ∧
    (onTrackingEvent s e t).1.frame_id = e.tracking_frame_id ∧
    (onTrackingEvent s e t).1.clientHost = s.clientHost ∧
    (onTrackingEvent s e t).1.clientPort = s.clientPort := by
  unfold onTrackingEvent
  dsimp only
  cases hl : s.last_time with
  | none => exact ⟨rfl, rfl, rfl, rfl⟩
  | some lt =>
    by_cases h0 : lt = 0
    · simp [h0]
    · by_cases ht : t = lt
      · simp [h0, ht]
      · cases hm : mapTrackingEvent e with
        | none => simp [h0, ht, hm]
        | some te => simp [h0, ht, hm]

/-- C9: encoding is deterministic — the labelled payload produced for a
`TrackingEvent` value is a function of that value alone; in particular
two encodings of the same value at different ambient wall-clock
instants are identical. -/
theorem encoding_deterministic (te : TrackingEvent) (now1 now2 : ℚ) :
    sendStructPayload now1 "/tracking/event" te =
      sendStructPayload now2 "/tracking/event" te := rfl

/-- C10: the FPS division is unguarded against a zero interval: two
consecutive callbacks with the same positive wall-clock arrival time
make the second callback fail with the division error before any sample
is pushed, any frame is mapped, or any message is sent. -/
theorem zero_interval_division_error (e0 e1 : LeapTrackingEvent) (t : ℚ) (ht : 0 < t) :
    (onTrackingEvent (onTrackingEvent initState e0 t).1 e1 t).2 = CallbackResult.error ∧
    (onTrackingEvent (onTrackingEvent initState e0 t).1 e1 t).1.fps_samples = [] ∧
    (runCallbacks initState [(e0, t), (e1, t)]).2 = [] := by
  have h1 := onTrackingEvent_first initState e0 t rfl
  have h2 := @onTrackingEvent_zero_interval
      ({ initState with
         current_hands := e0.hands
         frame_id := e0.tracking_frame_id
         last_time := some t })
      e1 t rfl ht.ne'
  refine ⟨?_, ?_, ?_⟩
  · simp [h1, h2]
  · simp [h1, h2]
    rfl
  · simp [runCallbacks_cons, runCallbacks_nil, h1, h2]

/-- C3: a mappable native frame with at most 2 hands, at most 5 digits
per hand and at most 4 bones per digit maps to a `TrackingEvent` with
exactly as many `Hand` records; each mapped hand has at most 5 fingers
and each finger at most 4 bones; the fingers follow the native digit
order with the i-th native digit's `finger_id` preserved as the mapped
`Finger`'s `id`, and each finger's bones follow the native bone order. -/
theorem mapped_frame_shape (e : LeapTrackingEvent) (te : TrackingEvent)
    (hmap : mapTrackingEvent e = some te)
    (_hN : e.hands.length ≤ 2)
    (hdig : ∀ h ∈ e.hands, h.digits.length ≤ 5)
    (hbone : ∀ h ∈ e.hands, ∀ d ∈ h.digits, d.bones.length ≤ 4) :
    te.hands.length = e.hands.length ∧
    (∀ hm ∈ te.hands, hm.fingers.length ≤ 5 ∧ ∀ f ∈ hm.fingers, f.bones.length ≤ 4) ∧
    (∀ i (hi : i < e.hands.length) (hi' : i < te.hands.length),
      (te.hands.get ⟨i, hi'⟩).fingers.length = (e.hands.get ⟨i, hi⟩).digits.length ∧
      ∀ j (hj : j < (e.hands.get ⟨i, hi⟩).digits.length)
        (hj' : j < (te.hands.get ⟨i, hi'⟩).fingers.length),
        ((te.hands.get ⟨i, hi'⟩).fingers.get ⟨j, hj'⟩).id =
          ((e.hands.get ⟨i, hi⟩).digits.get ⟨j, hj⟩).finger_id ∧
        ((te.hands.get ⟨i, hi'⟩).fingers.get ⟨j, hj'⟩).bones =
          ((e.hands.get ⟨i, hi⟩).digits.get ⟨j, hj⟩).bones.map mapBone) := by
  obtain ⟨hhands, -, -⟩ := mapTrackingEvent_eq_some hmap
  have hrel := mapHands_forall2 hhands
  have hlen := hrel.length_eq
  have hpt := (List.forall₂_iff_get.mp hrel).2
  refine ⟨hlen.symm, ?_, ?_⟩
  · intro hm hmem
    obtain ⟨⟨i, hi'⟩, hget⟩ := List.mem_iff_get.mp hmem
    have hi : i < e.hands.length := by omega
    obtain ⟨arm, -, hhm⟩ := mapHand_eq_some (hpt i hi hi')
    have hfing : hm.fingers = (e.hands.get ⟨i, hi⟩).digits.map mapDigit := by
      rw [← hget, hhm]
    constructor
    · rw [hfing, List.length_map]
      exact hdig _ (List.get_mem _ _ _)
    · intro f hf
      rw [hfing] at hf
      obtain ⟨d, hd, rfl⟩ := List.mem_map.mp hf
      have hb : (mapDigit d).bones = d.bones.map mapBone := rfl
      rw [hb, List.length_map]
      exact hbone _ (List.get_mem _ _ _) d hd
  · intro i hi hi'
    obtain ⟨arm, -, hhm⟩ := mapHand_eq_some (hpt i hi hi')
    have hfing : (te.hands.get ⟨i, hi'⟩).fingers =
        (e.hands.get ⟨i, hi⟩).digits.map mapDigit := by
      rw [hhm]
    refine ⟨by rw [hfing, List.length_map], ?_⟩
    intro j hj hj'
    have hget2 : (te.hands.get ⟨i, hi'⟩).fingers.get ⟨j, hj'⟩ =
        mapDigit ((e.hands.get ⟨i, hi⟩).digits.get ⟨j, hj⟩) := by
      have h3 := List.get_of_eq hfing ⟨j, hj'⟩
      rw [h3]
      simp [List.get_eq_getElem, List.getElem_map]
    rw [hget2]
    exact ⟨rfl, rfl⟩

/-- C3 witness: the scenario frame (one hand, five digits, four bones
each) maps to exactly one hand whose finger ids are 0 through 4 in
order. -/
theorem mapped_frame_shape_witness :
    (mapTrackingEvent scenarioFrame = some scenarioMapped ∧
      scenarioFrame.hands.length ≤ 2 ∧
      (∀ h ∈ scenarioFrame.hands, h.digits.length ≤ 5) ∧
      (∀ h ∈ scenarioFrame.hands, ∀ d ∈ h.digits, d.bones.length ≤ 4)) ∧
    scenarioMapped.hands.length = scenarioFrame.hands.length ∧
    (scenarioMapped.hands.map fun hm => hm.fingers.map Finger.id) = [[0, 1, 2, 3, 4]] :=
  ⟨⟨rfl, by decide, by decide, by decide⟩,
   (mapped_frame_shape scenarioFrame scenarioMapped rfl (by decide) (by decide) (by decide)).1,
   rfl⟩

/-- C4: every field of the mapped event is a verbatim copy of the
corresponding native field, with no unit conversion, clamping or
rounding: the frame id and timestamp are copied; each mapped hand
copies id, laterality, confidence, grab/pinch metrics and all palm
vectors, taking wrist and elbow from the arm sub-structure; each finger
copies the native digit's index, tip position and extension flag; each
bone copies both joints, center, all orientation components, length and
width. -/
theorem verbatim_fields (e : LeapTrackingEvent) (te : TrackingEvent)
    (hmap : mapTrackingEvent e = some te) :
    te.tracking_frame_id = e.tracking_frame_id ∧
    te.timestamp = e.timestamp ∧
    (∀ i (hi : i < e.hands.length) (hi' : i < te.hands.length),
      ∃ arm, (e.hands.get ⟨i, hi⟩).arm = some arm ∧
        te.hands.get ⟨i, hi'⟩ =
          { id := (e.hands.get ⟨i, hi⟩).id
            is_left := decide ((e.hands.get ⟨i, hi⟩).type = HandType.Left)
            confidence := (e.hands.get ⟨i, hi⟩).confidence
            grab_strength := (e.hands.get ⟨i, hi⟩).grab_strength
            pinch_strength := (e.hands.get ⟨i, hi⟩).pinch_strength
            pinch_distance := (e.hands.get ⟨i, hi⟩).pinch_distance
            palm_position := { x := (e.hands.get ⟨i, hi⟩).palm.position.x
                               y := (e.hands.get ⟨i, hi⟩).palm.position.y
                               z := (e.hands.get ⟨i, hi⟩).palm.position.z }
            palm_velocity := { x := (e.hands.get ⟨i, hi⟩).palm.velocity.x
                               y := (e.hands.get ⟨i, hi⟩).palm.velocity.y
                               z := (e.hands.get ⟨i, hi⟩).palm.velocity.z }
            palm_normal := { x := (e.hands.get ⟨i, hi⟩).palm.normal.x
                             y := (e.hands.get ⟨i, hi⟩).palm.normal.y
                             z := (e.hands.get ⟨i, hi⟩).palm.normal.z }
            direction := { x := (e.hands.get ⟨i, hi⟩).palm.direction.x
                           y := (e.hands.get ⟨i, hi⟩).palm.direction.y
                           z := (e.hands.get ⟨i, hi⟩).palm.direction.z }
            wrist_position := { x := arm.wrist.x, y := arm.wrist.y, z := arm.wrist.z }
            arm_elbow_position := { x := arm.elbow.x, y := arm.elbow.y, z := arm.elbow.z }
            fingers := (e.hands.get ⟨i, hi⟩).digits.map mapDigit }) ∧
    (∀ d : LeapDigit, mapDigit d =
      { id := d.finger_id
        tip_position := { x := d.tip_position.x, y := d.tip_position.y, z := d.tip_position.z }
        is_extended := d.is_extended
        bones := d.bones.map mapBone }) ∧
    (∀ b : LeapBone, mapBone b =
      { start_position := { x := b.prev_joint.x, y := b.prev_joint.y, z := b.prev_joint.z }
        end_position := { x := b.next_joint.x, y := b.next_joint.y, z := b.next_joint.z }
        center := { x := b.center.x, y := b.center.y, z := b.center.z }
        orientation := { x := b.rotation.x, y := b.rotation.y, z := b.rotation.z, w := b.rotation.w }
        length := b.length
        width := b.width }) := by
  obtain ⟨hhands, hid, hts⟩ := mapTrackingEvent_eq_some hmap
  have hpt := (List.forall₂_iff_get.mp (mapHands_forall2 hhands)).2
  exact ⟨hid, hts, fun i hi hi' => mapHand_eq_some (hpt i hi hi'),
    fun d => rfl, fun b => rfl⟩

/-- C4 witness: the scenario frame `{id=42, timestamp=1000000}` with one
left hand of confidence 0.9 and palm position `(10, 200, 30)` maps to
`is_left = true`, `confidence = 0.9` and `palm_position = (10, 200, 30)`
with id and timestamp copied. -/
theorem verbatim_fields_witness :
    mapTrackingEvent scenarioFrame = some scenarioMapped ∧
    (scenarioMapped.tracking_frame_id = scenarioFrame.tracking_frame_id ∧
     scenarioMapped.timestamp = scenarioFrame.timestamp) ∧
    (scenarioMapped.tracking_frame_id = 42 ∧
     scenarioMapped.timestamp = 1000000 ∧
     scenarioMapped.hands.map Hand.is_left = [true] ∧
     scenarioMapped.hands.map Hand.confidence = [9/10] ∧
     scenarioMapped.hands.map Hand.palm_position = [{ x := 10, y := 200, z := 30 }]) :=
  ⟨rfl,
   ⟨(verbatim_fields scenarioFrame scenarioMapped rfl).1,
    (verbatim_fields scenarioFrame scenarioMapped rfl).2.1⟩,
   ⟨rfl, rfl, rfl, rfl, rfl⟩⟩

/-- C5 is false on the code: the concrete native hand `armlessHand`
lacks its arm sub-structure, and the mapper produces no `Hand` record at
all — the unguarded `hand.arm.wrist` access aborts the hand, and with
it the whole frame `armlessFrame` — instead of substituting zero-valued
wrist/elbow vectors. -/
theorem absent_arm_counterexample :
    mapHand armlessHand = none ∧ mapTrackingEvent armlessFrame = none :=
  ⟨rfl, rfl⟩

/-- C5 (amended): a native hand entry whose arm sub-structure is absent
yields no `Hand` record — the unguarded `hand.arm.wrist` access raises —
and any frame containing such a hand fails to map entirely. -/
theorem absent_arm_aborts (h : LeapHand) (harm : h.arm = none)
    (e : LeapTrackingEvent) (hmem : h ∈ e.hands) :
    mapHand h = none ∧ mapTrackingEvent e = none := by
  constructor
  · unfold mapHand
    rw [harm]
  · exact mapTrackingEvent_eq_none ⟨h, hmem, harm⟩

/-- C5 witness: the armless hand of `armlessFrame` maps to nothing and
aborts its frame. -/
theorem absent_arm_aborts_witness :
    (armlessHand.arm = none ∧ armlessHand ∈ armlessFrame.hands) ∧
    (mapHand armlessHand = none ∧ mapTrackingEvent armlessFrame = none) :=
  ⟨⟨rfl, List.mem_singleton.mpr rfl⟩,
   absent_arm_aborts armlessHand rfl armlessFrame (List.mem_singleton.mpr rfl)⟩

/-- C6 is false on the code: `mixedFrame` holds one well-formed hand and
one hand missing its arm sub-structure; instead of skipping only the
offending entry and forwarding the rest, the whole frame fails to map,
and in a two-callback run the frame is not forwarded at all (while the
FPS sample was already pushed before the loop raised). -/
theorem malformed_entry_counterexample :
    mapTrackingEvent mixedFrame = none ∧
    (runCallbacks initState [(emptyFrame, 1), (mixedFrame, 2)]).2 = [] ∧
    (runCallbacks initState [(emptyFrame, 1), (mixedFrame, 2)]).1.fps_samples = [1] := by
  have h1 := onTrackingEvent_first initState emptyFrame 1 rfl
  have h2 := @onTrackingEvent_maperror
      ({ initState with
         current_hands := emptyFrame.hands
         frame_id := emptyFrame.tracking_frame_id
         last_time := some 1 })
      mixedFrame 2 1 rfl (by norm_num) (by norm_num) rfl
  refine ⟨rfl, ?_, ?_⟩
  · simp [runCallbacks_cons, runCallbacks_nil, h1, h2]
  · simp [runCallbacks_cons, runCallbacks_nil, h1, h2]
    norm_num [fpsPush, initState]

/-- C6 (amended): a frame containing a hand entry that misses a required
sub-structure (its arm) aborts the whole callback: the exception
escapes and the frame is not forwarded — nothing is skipped locally —
while the FPS sample has already been pushed and the previous-time
field is left stale. -/
theorem malformed_entry_aborts (s : ListenerState) (e : LeapTrackingEvent) (t lt : ℚ)
    (hs : s.last_time = some lt) (h0 : lt ≠ 0) (hne : t ≠ lt)
    (hbad : ∃ x ∈ e.hands, x.arm = none) :
    (onTrackingEvent s e t).2 = CallbackResult.error ∧
    (onTrackingEvent s e t).1.last_time = some lt ∧
    (onTrackingEvent s e t).1.fps_samples = fpsPush s.fps_samples (1 / (t - lt)) := by
  have hmap := mapTrackingEvent_eq_none hbad
  have hstep := onTrackingEvent_maperror hs h0 hne hmap
  rw [hstep]
  exact ⟨rfl, hs, rfl⟩

/-- C6 witness: in a state with previous arrival time 1, the callback
delivering `mixedFrame` at time 2 errors out without forwarding while
its sample was pushed. -/
theorem malformed_entry_aborts_witness :
    (({ initState with last_time := some 1 } : ListenerState).last_time = some 1 ∧
      (1 : ℚ) ≠ 0 ∧ (2 : ℚ) ≠ 1 ∧ ∃ x ∈ mixedFrame.hands, x.arm = none) ∧
    ((onTrackingEvent { initState with last_time := some 1 } mixedFrame 2).2 =
        CallbackResult.error ∧
     (onTrackingEvent { initState with last_time := some 1 } mixedFrame 2).1.last_time = some 1 ∧
     (onTrackingEvent { initState with last_time := some 1 } mixedFrame 2).1.fps_samples =
       fpsPush ({ initState with last_time := some 1 } : ListenerState).fps_samples (1 / (2 - 1))) :=
  ⟨⟨rfl, by norm_num, by norm_num,
    ⟨armlessHand, List.mem_cons_of_mem _ (List.mem_singleton.mpr rfl), rfl⟩⟩,
   malformed_entry_aborts { initState with last_time := some 1 } mixedFrame 2 1 rfl
     (by norm_num) (by norm_num)
     ⟨armlessHand, List.mem_cons_of_mem _ (List.mem_singleton.mpr rfl), rfl⟩⟩

/-- C7 is false on the code in its eviction part: after 31 consecutive
callbacks at the strictly increasing arrival times `sqTimes`, the rate
window holds exactly 30 samples, but the oldest pushed sample (`1/3`,
computed on the second callback and equal to no other sample of this
run) is still present at the head of the window — nothing has been
evicted yet. -/
theorem rate_window_counterexample :
    (runCallbacks initState (sqTimes.map fun t => (emptyFrame, t))).1.fps_samples.length = 30 ∧
    (runCallbacks initState (sqTimes.map fun t => (emptyFrame, t))).1.fps_samples.head? =
      some (1 / 3) := by
  have hrun := run_steady emptyFrame
      { tracking_frame_id := 7, timestamp := 123456, hands := [] } rfl sqTailTimes
      ({ initState with
         current_hands := emptyFrame.hands
         frame_id := emptyFrame.tracking_frame_id
         last_time := some 1 })
      1 rfl one_pos (by norm_num [sqTailTimes, List.chain_cons, List.Chain.nil])
  have hglen : (gaps 1 sqTailTimes).length = 30 := by
    rw [gaps_length]
    rfl
  have hfold : List.foldl fpsPush [] (gaps 1 sqTailTimes) = gaps 1 sqTailTimes := by
    have hf := foldl_fpsPush_of_le (gaps 1 sqTailTimes) [] (by simp [hglen])
    simpa using hf
  have hmain : (runCallbacks initState (sqTimes.map fun t => (emptyFrame, t))).1.fps_samples =
      gaps 1 sqTailTimes := by
    refine Eq.trans ?_ hfold
    exact hrun.1
  constructor
  · rw [hmain]
    exact hglen
  · rw [hmain]
    have hhead : gaps 1 sqTailTimes = (1 / (4 - 1)) :: gaps 4 (sqTailTimes.tail) := rfl
    rw [hhead]
    norm_num

/-- C7 (amended): the rate window never exceeds 30 samples, each
steady-state callback pushing `1/(now - previous)` computed from
wall-clock arrival times and evicting the oldest once 30 are held; and
after 31 consecutive callbacks of a mappable frame at strictly
increasing positive arrival times the count is exactly 30 with the
window holding all 30 pushed samples in order — the oldest is still
present, eviction first happening on the 32nd callback. -/
theorem rate_window_amended (e : LeapTrackingEvent) (te : TrackingEvent)
    (hmap : mapTrackingEvent e = some te)
    (t0 t1 : ℚ) (rest : List ℚ) (hlen : rest.length = 29)
    (hpos : 0 < t0) (hchain : List.Chain (· < ·) t0 (t1 :: rest)) :
    (∀ (s : ListenerState) (e2 : LeapTrackingEvent) (t2 : ℚ),
      s.fps_samples.length ≤ 30 → ((onTrackingEvent s e2 t2).1).fps_samples.length ≤ 30) ∧
    (runCallbacks initState ((t0 :: t1 :: rest).map fun t => (e, t))).1.fps_samples =
      gaps t0 (t1 :: rest) ∧
    (runCallbacks initState ((t0 :: t1 :: rest).map fun t => (e, t))).1.fps_samples.length = 30 ∧
    (runCallbacks initState ((t0 :: t1 :: rest).map fun t => (e, t))).1.fps_samples.head? =
      some (1 / (t1 - t0)) := by
  have hrun := run_steady e te hmap (t1 :: rest)
      ({ initState with
         current_hands := e.hands
         frame_id := e.tracking_frame_id
         last_time := some t0 })
      t0 rfl hpos hchain
  have hglen : (gaps t0 (t1 :: rest)).length = 30 := by
    rw [gaps_length]
    simp [hlen]
  have hfold : List.foldl fpsPush [] (gaps t0 (t1 :: rest)) = gaps t0 (t1 :: rest) := by
    have hf := foldl_fpsPush_of_le (gaps t0 (t1 :: rest)) [] (by simp [hglen])
    simpa using hf
  have hmain : (runCallbacks initState ((t0 :: t1 :: rest).map fun t => (e, t))).1.fps_samples =
      gaps t0 (t1 :: rest) := by
    refine Eq.trans ?_ hfold
    exact hrun.1
  refine ⟨?_, hmain, ?_, ?_⟩
  · intro s e2 t2 hle
    cases hl : s.last_time with
    | none =>
      rw [onTrackingEvent_first s e2 t2 hl]
      simpa using hle
    | some lt =>
      by_cases h0 : lt = 0
      · subst h0
        rw [onTrackingEvent_falsy e2 t2 hl]
        simpa using hle
      · by_cases ht : t2 = lt
        · subst ht
          rw [onTrackingEvent_zero_interval hl h0]
          simpa using hle
        · cases hm2 : mapTrackingEvent e2 with
          | none =>
            rw [onTrackingEvent_maperror hl h0 ht hm2]
            simpa using fpsPush_length_le hle _
          | some te2 =>
            rw [onTrackingEvent_steady hl h0 ht hm2]
            simpa using fpsPush_length_le hle _
  · rw [hmain]
    exact hglen
  · rw [hmain]
    simp [gaps]

/-- C7 witness: a 31-callback train of the empty frame at times 1
through 31 leaves exactly 30 samples in the window. -/
theorem rate_window_amended_witness :
    (mapTrackingEvent emptyFrame =
        some { tracking_frame_id := 7, timestamp := 123456, hands := [] } ∧
      witnessTimes.length = 29 ∧ (0 : ℚ) < 1 ∧
      List.Chain (· < ·) 1 (2 :: witnessTimes)) ∧
    (runCallbacks initState
        ((1 :: 2 :: witnessTimes).map fun t => (emptyFrame, t))).1.fps_samples.length = 30 :=
  ⟨⟨rfl, rfl, by norm_num, by norm_num [witnessTimes, List.chain_cons, List.Chain.nil]⟩,
   (rate_window_amended emptyFrame { tracking_frame_id := 7, timestamp := 123456, hands := [] }
      rfl 1 2 witnessTimes rfl (by norm_num)
      (by norm_num [witnessTimes, List.chain_cons, List.Chain.nil])).2.2.1⟩

/-- C10 witness: at arrival times 1 and 1 the second callback errors out
with nothing pushed and nothing sent. -/
theorem zero_interval_division_error_witness :
    (0 : ℚ) < 1 ∧
    ((onTrackingEvent (onTrackingEvent initState emptyFrame 1).1 scenarioFrame 1).2 =
        CallbackResult.error ∧
     (onTrackingEvent (onTrackingEvent initState emptyFrame 1).1 scenarioFrame 1).1.fps_samples = [] ∧
     (runCallbacks initState [(emptyFrame, 1), (scenarioFrame, 1)]).2 = []) :=
  ⟨by norm_num, zero_interval_division_error emptyFrame scenarioFrame 1 (by norm_num)⟩

end Input
